import Mathlib

/-!
Verification of the playback-position synchronization and loop-control core
of the `omo` media-synchronization app.

The definitions below are shallow embeddings of the TypeScript source:
* `LyricsParser.findCurrentLineIndex` and `LyricsParser.parseJSON`
  (src/utils/lyricsParser.ts),
* the loop reducer and helpers of `useLoopState`
  (src/hooks/useLoopState.ts),
* the `AudioPlayer` component's loop boundary check, loop start and seek
  handlers (AudioPlayer component file),
* `calculateProgress` of `useAudioSync` (src/hooks/useAudioSync.ts).

Times are modelled as integers (milliseconds); progress values as rationals.
-/

/-- One timed lyric line, as produced by `LyricsParser.parseJSON`
(fields `startTime`, `endTime`, `japanese`, `romaji`, `english`). -/
structure LyricLine where
  startTime : Int
  endTime : Int
  japanese : String
  romaji : String
  english : String
deriving DecidableEq, Repr

/-- The check performed after the search loop of `findCurrentLineIndex`:
`result >= 0 && currentTime >= lyrics[result].startTime && currentTime < lyrics[result].endTime`,
guarding the indexing exactly as the short-circuit `&&` does. -/
def postLoopCheck (lyrics : List LyricLine) (t : Int) (result : Int) : Int :=
  if 0 ≤ result then
    match lyrics[result.toNat]? with
    | none => -1
    | some line => if line.startTime ≤ t ∧ t < line.endTime then result else -1
  else -1

/-- The search loop of `LyricsParser.findCurrentLineIndex`:
`left` starts at 0 and only ever increases (so it is a `Nat`);
`right` can reach `-1` via `right = mid - 1`, so it is an `Int`.
`mid = Math.floor((left + right) / 2)`; the `else` branch of the recursion
is the post-loop check. -/
def findAux (lyrics : List LyricLine) (t : Int) (left : Nat) (right : Int)
    (result : Int) : Int :=
  if _h : (left : Int) ≤ right then
    let mid : Nat := (((left : Int) + right) / 2).toNat
    match lyrics[mid]? with
    | none => -1
    | some line =>
      if line.startTime ≤ t ∧ t < line.endTime then (mid : Int)
      else if line.startTime ≤ t then findAux lyrics t (mid + 1) right (mid : Int)
      else findAux lyrics t left ((mid : Int) - 1) result
  else postLoopCheck lyrics t result
termination_by (right + 1 - (left : Int)).toNat
decreasing_by
  · omega
  · omega

/-- `LyricsParser.findCurrentLineIndex`: binary search for the line whose
half-open interval `[startTime, endTime)` contains `currentTime`; `-1` if none. -/
def findCurrentLineIndex (lyrics : List LyricLine) (t : Int) : Int :=
  if lyrics.length = 0 then -1
  else findAux lyrics t 0 ((lyrics.length : Int) - 1) (-1)

/-- A time lies in a line's half-open active interval. -/
def segContains (line : LyricLine) (t : Int) : Prop :=
  line.startTime ≤ t ∧ t < line.endTime

instance (line : LyricLine) (t : Int) : Decidable (segContains line t) := by
  unfold segContains; infer_instance

/-- The three-line sample transcript of the specification:
`[ {0,2000}, {2500,4000}, {4000,6000} ]`. -/
def sampleLyrics : List LyricLine :=
  [⟨0, 2000, "", "", ""⟩, ⟨2500, 4000, "", "", ""⟩, ⟨4000, 6000, "", "", ""⟩]

/-! ## AudioPlayer: loop region, boundary check and seeking

Shallow embedding of the `AudioPlayer` component's imperative handlers.
External effects (commands issued to the HTML audio element, parent
callbacks) are recorded in an action trace so that ordering and presence
of transport commands can be stated. The non-demo code path (a real audio
element is mounted and `play()` resolves successfully) is modelled. -/

/-- Externally visible effects of the `AudioPlayer` handlers.
`updatePosition` is the `setCurrentTime` state write, `notifyTime` the
`onTimeUpdate` parent callback, `transportSeek`/`transportPlay`/`transportPause`
commands to the underlying audio element, `iterationEvent` the
`onLoopIteration` callback, and `setPlayingFlag` a write to the component's
`isPlaying` state. -/
inductive PlayerAction where
  | updatePosition (t : Int)
  | notifyTime (t : Int)
  | transportSeek (t : Int)
  | transportPlay
  | transportPause
  | iterationEvent
  | setPlayingFlag (b : Bool)
deriving DecidableEq, Repr

/-- The `loopRegion` state of `AudioPlayer` (set by `setLoopRegion`). -/
structure LoopRegion where
  startTime : Int
  endTime : Int
  repeatCount : Int
  currentIteration : Nat
  isActive : Bool
deriving DecidableEq, Repr

/-- The `AudioPlayer` component state relevant to looping and seeking. -/
structure AudioPlayerState where
  loopRegion : Option LoopRegion
  currentTime : Int
  isPlaying : Bool
  duration : Int
deriving DecidableEq, Repr

/-- `checkLoopBoundary(time)`: no-op unless a loop region is active and
`time >= endTime`; then either rewind (`shouldContinue`: `repeatCount === 0 ||
currentIteration + 1 < repeatCount`) — incrementing the iteration counter,
seeking the transport back to `startTime` and emitting the iteration event —
or deactivate the region and set the `isPlaying` flag to false. Note the
deactivation branch issues no command to the transport itself. -/
def checkLoopBoundary (s : AudioPlayerState) (time : Int) :
    AudioPlayerState × List PlayerAction :=
  match s.loopRegion with
  | none => (s, [])
  | some lr =>
    if lr.isActive = false then (s, [])
    else if lr.endTime ≤ time then
      if lr.repeatCount = 0 ∨ ((lr.currentIteration : Int) + 1 < lr.repeatCount) then
        ({ s with
            loopRegion := some { lr with currentIteration := lr.currentIteration + 1 },
            currentTime := lr.startTime },
         [.transportSeek lr.startTime, .updatePosition lr.startTime,
          .notifyTime lr.startTime, .iterationEvent])
      else
        ({ s with loopRegion := some { lr with isActive := false }, isPlaying := false },
         if s.isPlaying then [.setPlayingFlag false] else [])
    else (s, [])

/-- `setLoopRegionHandler(startTime, endTime, repeatCount)`: installs a fresh
active loop region with iteration 0, seeks the transport to `startTime`, and
starts playback when currently paused. -/
def setLoopRegionHandler (s : AudioPlayerState) (startTime endTime repeatCount : Int) :
    AudioPlayerState × List PlayerAction :=
  let s1 := { s with loopRegion := some ⟨startTime, endTime, repeatCount, 0, true⟩ }
  if s.isPlaying then (s1, [.transportSeek startTime])
  else ({ s1 with isPlaying := true },
        [.transportSeek startTime, .transportPlay, .setPlayingFlag true])

/-- Folding a sequence of tick times through `checkLoopBoundary`,
accumulating the action trace. -/
def runBoundaryTicks (s : AudioPlayerState) (times : List Int) :
    AudioPlayerState × List PlayerAction :=
  times.foldl
    (fun acc t =>
      let step := checkLoopBoundary acc.1 t
      (step.1, acc.2 ++ step.2))
    (s, [])

/-- `seekTo(timeInMs)` (real-audio path): clamps the target to
`[0, duration]`, updates the tracked position and notifies the parent
*before* issuing the transport seek, then starts playback if the player is
not currently playing. -/
def seekTo (s : AudioPlayerState) (timeInMs : Int) :
    AudioPlayerState × List PlayerAction :=
  let clamped := max 0 (min timeInMs s.duration)
  if s.isPlaying then
    ({ s with currentTime := clamped },
     [.updatePosition clamped, .notifyTime clamped, .transportSeek clamped])
  else
    ({ s with currentTime := clamped, isPlaying := true },
     [.updatePosition clamped, .notifyTime clamped, .transportSeek clamped,
      .transportPlay, .setPlayingFlag true])

/-! ## JSON values and `LyricsParser.parseJSON` -/

/-- Untyped JSON-ish values, the domain of `parseJSON(jsonData: any)`.
`null` also stands for JavaScript `undefined` (absent property): both are
falsy and have `typeof` different from `number` and `string`, which is all
the parser ever observes. -/
inductive JsonVal where
  | null : JsonVal
  | bool (b : Bool) : JsonVal
  | num (n : Int) : JsonVal
  | str (s : String) : JsonVal
  | arr (elems : List JsonVal) : JsonVal
  | obj (fields : List (String × JsonVal)) : JsonVal

/-- JavaScript truthiness of a value. -/
def truthy : JsonVal → Bool
  | .null => false
  | .bool b => b
  | .num n => n != 0
  | .str s => s != ""
  | .arr _ => true
  | .obj _ => true

/-- JavaScript property access `j[name]`; `undefined` (here `.null`) on
non-objects and missing keys. -/
def jfield (j : JsonVal) (name : String) : JsonVal :=
  match j with
  | .obj fields =>
    match fields.lookup name with
    | some v => v
    | none => .null
  | _ => .null

/-- `typeof v === 'number'`. -/
def isNum : JsonVal → Bool
  | .num _ => true
  | _ => false

/-- Numeric payload (only used under an `isNum` guard). -/
def asNum : JsonVal → Int
  | .num n => n
  | _ => 0

/-- String payload (only used under a string `typeof` guard). -/
def asStr : JsonVal → String
  | .str s => s
  | _ => ""

/-- The parsed metadata. `title` and `artist` are kept as JSON values: the
source only checks them for truthiness (`!metadata.title`), not for type, so
any truthy value flows through to the result. -/
structure SongMetadata where
  title : JsonVal
  artist : JsonVal
  duration : Int

/-- The parsed transcript: metadata plus the validated, sorted lines. -/
structure LyricsData where
  metadata : SongMetadata
  lyrics : List LyricLine

/-- Validation of one entry of the `lyrics` array: the five fields must have
the right `typeof` and `startTime < endTime` must hold. -/
def parseLyricLine (line : JsonVal) (index : Nat) : Except String LyricLine :=
  match jfield line "startTime", jfield line "endTime", jfield line "japanese",
      jfield line "romaji", jfield line "english" with
  | .num s, .num e, .str jp, .str ro, .str en =>
    if s ≥ e then
      .error ("Invalid lyric line at index " ++ toString index ++
        ": startTime must be less than endTime")
    else .ok ⟨s, e, jp, ro, en⟩
  | _, _, _, _, _ =>
    .error ("Invalid lyric line at index " ++ toString index ++ ": missing required fields")

/-- Whether one entry of the `lyrics` array passes validation. -/
def lineOk (line : JsonVal) : Bool :=
  match jfield line "startTime", jfield line "endTime", jfield line "japanese",
      jfield line "romaji", jfield line "english" with
  | .num s, .num e, .str _, .str _, .str _ => decide (s < e)
  | _, _, _, _, _ => false

/-- The `LyricLine` a valid entry parses to. -/
def extractLine (line : JsonVal) : LyricLine :=
  ⟨asNum (jfield line "startTime"), asNum (jfield line "endTime"),
   asStr (jfield line "japanese"), asStr (jfield line "romaji"),
   asStr (jfield line "english")⟩

/-- `lyrics.map((line, index) => ...)` with a throwing callback: stops at the
first invalid line. -/
def parseLines (index : Nat) : List JsonVal → Except String (List LyricLine)
  | [] => .ok []
  | line :: rest =>
    match parseLyricLine line index with
    | .error e => .error e
    | .ok l =>
      match parseLines (index + 1) rest with
      | .error e => .error e
      | .ok ls => .ok (l :: ls)

/-- `LyricsParser.parseJSON`: presence checks, metadata checks, per-line
validation, then the validated lines sorted ascending by `startTime`.
A truthy non-array `lyrics` value makes `lyrics.map` throw a `TypeError`
in the source; that is the final error branch here. -/
def parseJSON (jsonData : JsonVal) : Except String LyricsData :=
  let metadata := jfield jsonData "metadata"
  let lyrics := jfield jsonData "lyrics"
  if !truthy metadata || !truthy lyrics then
    .error "Invalid lyrics data: missing metadata or lyrics"
  else if !truthy (jfield metadata "title") || !truthy (jfield metadata "artist")
      || !isNum (jfield metadata "duration") then
    .error "Invalid metadata: missing title, artist, or duration"
  else
    match lyrics with
    | .arr items =>
      match parseLines 0 items with
      | .error e => .error e
      | .ok validated =>
        .ok ⟨⟨jfield metadata "title", jfield metadata "artist",
              asNum (jfield metadata "duration")⟩,
             validated.insertionSort (fun a b => a.startTime ≤ b.startTime)⟩
    | _ => .error "TypeError: lyrics.map is not a function"

instance : IsTotal LyricLine (fun a b => a.startTime ≤ b.startTime) :=
  ⟨fun a b => le_total a.startTime b.startTime⟩

instance : IsTrans LyricLine (fun a b => a.startTime ≤ b.startTime) :=
  ⟨fun _ _ _ h1 h2 => le_trans h1 h2⟩

/-! ## `useLoopState`: reducer and helpers -/

/-- The loop mode: segment-selection (`'lyrics'`) or explicit time range. -/
inductive LoopMode where
  | lyrics : LoopMode
  | time : LoopMode
deriving DecidableEq, Repr

/-- The `LoopState` managed by the `useLoopState` reducer. -/
structure LoopState where
  isActive : Bool
  mode : Option LoopMode
  startTime : Int
  endTime : Int
  selectedLyricIndices : List Nat
  repeatCount : Int
  currentIteration : Nat
deriving DecidableEq, Repr

/-- `initialLoopState`. -/
def initialLoopState : LoopState :=
  ⟨false, none, 0, 0, [], 1, 0⟩

/-- The reducer's action type. -/
inductive LoopAction where
  | setMode (mode : Option LoopMode)
  | toggleLyricSelection (index : Nat)
  | setTimeRange (startTime endTime : Int)
  | setRepeatCount (count : Int)
  | startLoop (startTime endTime : Int)
  | stopLoop
  | incrementIteration
  | resetLoop
deriving DecidableEq, Repr

/-- `loopReducer`. -/
def loopReducer (state : LoopState) (action : LoopAction) : LoopState :=
  match action with
  | .setMode m =>
    { state with
        mode := m,
        selectedLyricIndices :=
          if m = some .lyrics then state.selectedLyricIndices else [] }
  | .toggleLyricSelection i =>
    let isSelected := state.selectedLyricIndices.contains i
    { state with
        selectedLyricIndices :=
          if isSelected then state.selectedLyricIndices.filter (fun x => x ≠ i)
          else (state.selectedLyricIndices ++ [i]).insertionSort (fun a b => a ≤ b) }
  | .setTimeRange s e => { state with startTime := s, endTime := e }
  | .setRepeatCount c => { state with repeatCount := max 0 c }
  | .startLoop s e =>
    { state with isActive := true, startTime := s, endTime := e, currentIteration := 0 }
  | .stopLoop => { state with isActive := false }
  | .incrementIteration => { state with currentIteration := state.currentIteration + 1 }
  | .resetLoop => initialLoopState

/-- `calculateTimeRangeFromLyrics`: `{0,0}` on a null transcript or empty
selection; otherwise resolve the selected indices (out-of-range indices are
dropped, as `.filter(Boolean)` drops `undefined`) and take
`Math.min` of the start times and `Math.max` of the end times. -/
def calculateTimeRangeFromLyrics (selectedIndices : List Nat)
    (lyricsData : Option LyricsData) : Int × Int :=
  match lyricsData with
  | none => (0, 0)
  | some ld =>
    match selectedIndices with
    | [] => (0, 0)
    | _ :: _ =>
      match selectedIndices.filterMap (fun i => ld.lyrics[i]?) with
      | [] => (0, 0)
      | l :: ls =>
        ((ls.map LyricLine.startTime).foldl min l.startTime,
         (ls.map LyricLine.endTime).foldl max l.endTime)

/-- `validateTimeRange`: clamp the start to `[0, duration]`, then force the
end to at least `clampedStart + 1000` ("Minimum 1 second loop"). -/
def validateTimeRange (startTime endTime duration : Int) : Int × Int :=
  (max 0 (min startTime duration),
   max (max 0 (min startTime duration) + 1000) (min endTime duration))

/-- The `startLoop` callback of `useLoopState`: derives the range from the
selection in `'lyrics'` mode (refusing zero-width ranges), uses the stored
range in `'time'` mode, validates it and dispatches `START_LOOP`; returns
whether a loop was started. -/
def startLoopHook (state : LoopState) (lyricsData : Option LyricsData)
    (duration : Int) : LoopState × Bool :=
  match state.mode with
  | some .lyrics =>
    let timeRange := calculateTimeRangeFromLyrics state.selectedLyricIndices lyricsData
    if timeRange.1 = timeRange.2 then (state, false)
    else
      ((loopReducer state (.startLoop (validateTimeRange timeRange.1 timeRange.2 duration).1
          (validateTimeRange timeRange.1 timeRange.2 duration).2)), true)
  | some .time =>
    ((loopReducer state (.startLoop
        (validateTimeRange state.startTime state.endTime duration).1
        (validateTimeRange state.startTime state.endTime duration).2)), true)
  | none => (state, false)

/-! ## `useAudioSync.calculateProgress` -/

/-- The `loopState` prop consumed by `useAudioSync`. -/
structure SyncLoopState where
  isActive : Bool
  startTime : Int
  endTime : Int
  currentIteration : Nat
  repeatCount : Int
  mode : Option LoopMode
  selectedLyricIndices : List Nat

/-- The `individualLyricLoop` prop consumed by `useAudioSync`. -/
structure IndividualLyricLoop where
  isActive : Bool
  startTime : Int
  endTime : Int
  repeatCount : Int
  currentIteration : Nat

/-- The `CurrentLine` value produced by `findCurrentLine`. -/
structure CurrentLine where
  index : Int
  line : Option LyricLine
  isActive : Bool

/-- `loopState && loopState.isActive && loopState.mode === m`. -/
def loopActiveWithMode (loopState : Option SyncLoopState) (m : LoopMode) : Bool :=
  match loopState with
  | some ls => ls.isActive && ls.mode == some m
  | none => false

/-- `individualLyricLoop && individualLyricLoop.isActive`. -/
def indLoopActive (ind : Option IndividualLyricLoop) : Bool :=
  match ind with
  | some il => il.isActive
  | none => false

/-- `Math.max(0, Math.min(1, x))`. -/
def clamp01 (x : Rat) : Rat := max 0 (min 1 x)

/-- The shared in-loop branch body of `calculateProgress`: a closed-interval
containment test, then clamped interpolation between the given bounds,
0 before the range, 1 after. -/
def branchProgress (s e t : Int) : Rat :=
  if s ≤ t ∧ t ≤ e then clamp01 (((t - s : Int) : Rat) / ((e - s : Int) : Rat))
  else if t < s then 0 else 1

/-- `useAudioSync.calculateProgress` (loop-aware version): 0 for no line or
an inactive line; while a `'lyrics'`- or `'time'`-mode loop is active the
interpolation uses the current line's own bounds; otherwise, while an
individual lyric loop is active, it uses the loop region's bounds; otherwise
the plain clamped line-local interpolation. -/
def calculateProgress (currentTime : Int) (loopState : Option SyncLoopState)
    (ind : Option IndividualLyricLoop) (cl : CurrentLine) : Rat :=
  match cl.line with
  | none => 0
  | some l =>
    if cl.isActive = false then 0
    else if loopActiveWithMode loopState .lyrics then
      branchProgress l.startTime l.endTime currentTime
    else if loopActiveWithMode loopState .time then
      branchProgress l.startTime l.endTime currentTime
    else if indLoopActive ind then
      match ind with
      | some il => branchProgress il.startTime il.endTime currentTime
      | none => 0
    else
      clamp01 (((currentTime - l.startTime : Int) : Rat) /
        ((l.endTime - l.startTime : Int) : Rat))

/-- A well-typed lyrics line as JSON, `[0, 2000)`. -/
def lineJsonA : JsonVal :=
  .obj [("startTime", .num 0), ("endTime", .num 2000), ("japanese", .str "ja1"),
        ("romaji", .str "ro1"), ("english", .str "en1")]

/-- A well-typed lyrics line as JSON, `[2500, 4000)`. -/
def lineJsonB : JsonVal :=
  .obj [("startTime", .num 2500), ("endTime", .num 4000), ("japanese", .str "ja2"),
        ("romaji", .str "ro2"), ("english", .str "en2")]

/-- A valid transcript input whose lines are deliberately out of order. -/
def sampleJson : JsonVal :=
  .obj [("metadata", .obj [("title", .str "T"), ("artist", .str "A"),
          ("duration", .num 6000)]),
        ("lyrics", .arr [lineJsonB, lineJsonA])]

/-! ## Theorems -/

/-- A `List.Pairwise` relation specialised to two positions. -/
theorem pairwise_rel_of_lt {R : LyricLine → LyricLine → Prop} {lyrics : List LyricLine}
    (hp : lyrics.Pairwise R) {i j : Nat} (hi : i < lyrics.length) (hj : j < lyrics.length)
    (hij : i < j) : R (lyrics.get ⟨i, hi⟩) (lyrics.get ⟨j, hj⟩) :=
  (List.pairwise_iff_get.mp hp) ⟨i, hi⟩ ⟨j, hj⟩ hij

/-- Pairwise non-overlapping segments: at most one contains a given time. -/
theorem segContains_unique {lyrics : List LyricLine}
    (hdisj : lyrics.Pairwise (fun a b => a.endTime ≤ b.startTime))
    {t : Int} {i j : Nat} (hi : i < lyrics.length) (hj : j < lyrics.length)
    (hci : segContains (lyrics.get ⟨i, hi⟩) t) (hcj : segContains (lyrics.get ⟨j, hj⟩) t) :
    i = j := by
  rcases Nat.lt_trichotomy i j with h | h | h
  · have hr := pairwise_rel_of_lt hdisj hi hj h
    obtain ⟨_, h2⟩ := hci
    obtain ⟨h3, _⟩ := hcj
    omega
  · exact h
  · have hr := pairwise_rel_of_lt hdisj hj hi h
    obtain ⟨h1, _⟩ := hci
    obtain ⟨_, h4⟩ := hcj
    omega

/-- The post-loop check only ever returns `-1` or the index of a line whose
half-open interval contains `t`. -/
theorem postLoopCheck_sound (lyrics : List LyricLine) (t : Int) (result : Int) :
    postLoopCheck lyrics t result = -1 ∨
      ∃ (j : Nat) (hj : j < lyrics.length),
        postLoopCheck lyrics t result = (j : Int) ∧ segContains (lyrics.get ⟨j, hj⟩) t := by
  unfold postLoopCheck
  by_cases h0 : 0 ≤ result
  · rw [if_pos h0]
    cases hm : lyrics[result.toNat]? with
    | none => exact Or.inl rfl
    | some line =>
      dsimp only
      by_cases hc : line.startTime ≤ t ∧ t < line.endTime
      · refine Or.inr ⟨result.toNat, ?_, ?_, ?_⟩
        · exact (List.getElem?_eq_some_iff.mp hm).1
        · rw [if_pos hc]; omega
        · have := (List.getElem?_eq_some_iff.mp hm)
          obtain ⟨hlt, he⟩ := this
          simpa [segContains, List.get_eq_getElem, he] using hc
      · rw [if_neg hc]; exact Or.inl rfl
  · rw [if_neg h0]; exact Or.inl rfl

/-- Soundness of the search loop: whatever the window and recorded candidate,
`findAux` returns `-1` or the index of a line containing `t`. -/
theorem findAux_sound (lyrics : List LyricLine) (t : Int) :
    ∀ (n : Nat) (left : Nat) (right result : Int),
      (right + 1 - (left : Int)).toNat ≤ n →
      findAux lyrics t left right result = -1 ∨
        ∃ (j : Nat) (hj : j < lyrics.length),
          findAux lyrics t left right result = (j : Int) ∧
            segContains (lyrics.get ⟨j, hj⟩) t := by
  intro n
  induction n with
  | zero =>
    intro left right result hn
    have hlr : ¬ ((left : Int) ≤ right) := by omega
    rw [findAux.eq_def, dif_neg hlr]
    exact postLoopCheck_sound lyrics t result
  | succ n ih =>
    intro left right result hn
    by_cases hlr : (left : Int) ≤ right
    · rw [findAux.eq_def, dif_pos hlr]
      dsimp only
      cases hm : lyrics[(((left : Int) + right) / 2).toNat]? with
      | none => exact Or.inl rfl
      | some line =>
        dsimp only
        by_cases hc : line.startTime ≤ t ∧ t < line.endTime
        · rw [if_pos hc]
          refine Or.inr ⟨(((left : Int) + right) / 2).toNat, ?_, rfl, ?_⟩
          · exact (List.getElem?_eq_some_iff.mp hm).1
          · obtain ⟨hlt, he⟩ := List.getElem?_eq_some_iff.mp hm
            simpa [segContains, List.get_eq_getElem, he] using hc
        · rw [if_neg hc]
          by_cases hs : line.startTime ≤ t
          · rw [if_pos hs]
            exact ih _ _ _ (by omega)
          · rw [if_neg hs]
            exact ih _ _ _ (by omega)
    · rw [findAux.eq_def, dif_neg hlr]
      exact postLoopCheck_sound lyrics t result

/-- Completeness of the search loop: if line `j` contains `t`, the transcript
is sorted by `startTime` and pairwise non-overlapping, and `j` lies inside the
current search window, the loop returns `j`. -/
theorem findAux_complete (lyrics : List LyricLine) (t : Int)
    (hsort : lyrics.Pairwise (fun a b => a.startTime ≤ b.startTime))
    (hdisj : lyrics.Pairwise (fun a b => a.endTime ≤ b.startTime))
    (j : Nat) (hj : j < lyrics.length)
    (hcont : segContains (lyrics.get ⟨j, hj⟩) t) :
    ∀ (n : Nat) (left : Nat) (right result : Int),
      (right + 1 - (left : Int)).toNat ≤ n →
      left ≤ j → (j : Int) ≤ right → right < (lyrics.length : Int) →
      findAux lyrics t left right result = (j : Int) := by
  intro n
  induction n with
  | zero =>
    intro left right result hn hlj hjr hrl
    exfalso; omega
  | succ n ih =>
    intro left right result hn hlj hjr hrl
    have hlr : (left : Int) ≤ right := by omega
    rw [findAux.eq_def, dif_pos hlr]
    dsimp only
    have hmlt : (((left : Int) + right) / 2).toNat < lyrics.length := by omega
    cases hm : lyrics[(((left : Int) + right) / 2).toNat]? with
    | none =>
      rw [List.getElem?_eq_getElem hmlt] at hm
      simp at hm
    | some line =>
      dsimp only
      have hline : line = lyrics.get ⟨(((left : Int) + right) / 2).toNat, hmlt⟩ := by
        obtain ⟨_, he⟩ := List.getElem?_eq_some_iff.mp hm
        simp [List.get_eq_getElem, he]
      by_cases hc : line.startTime ≤ t ∧ t < line.endTime
      · rw [if_pos hc]
        have hcmid : segContains (lyrics.get ⟨(((left : Int) + right) / 2).toNat, hmlt⟩) t := by
          rw [← hline]; exact ⟨hc.1, hc.2⟩
        have heq : (((left : Int) + right) / 2).toNat = j :=
          segContains_unique hdisj hmlt hj hcmid hcont
        omega
      · rw [if_neg hc]
        by_cases hs : line.startTime ≤ t
        · rw [if_pos hs]
          have hend : line.endTime ≤ t := by
            by_contra hlt
            exact hc ⟨hs, by omega⟩
          -- `j` is strictly to the right of `mid`
          have hmj : (((left : Int) + right) / 2).toNat < j := by
            rcases Nat.lt_trichotomy (((left : Int) + right) / 2).toNat j with h | h | h
            · exact h
            · exfalso
              have : segContains line t := by
                rw [hline]
                subst h
                exact hcont
              exact hc ⟨this.1, this.2⟩
            · exfalso
              have hr := pairwise_rel_of_lt hdisj hj hmlt h
              rw [← hline] at hr
              obtain ⟨_, h2⟩ := hcont
              omega
          exact ih _ _ _ (by omega) (by omega) hjr hrl
        · rw [if_neg hs]
          -- `j` is strictly to the left of `mid`
          have hmj : j < (((left : Int) + right) / 2).toNat := by
            rcases Nat.lt_trichotomy j (((left : Int) + right) / 2).toNat with h | h | h
            · exact h
            · exfalso
              apply hs
              rw [hline]
              have h2 := hcont.1
              subst h
              exact h2
            · exfalso
              have hr := pairwise_rel_of_lt hsort hmlt hj h
              rw [← hline] at hr
              obtain ⟨h1, _⟩ := hcont
              omega
          exact ih _ _ _ (by omega) hlj (by omega) (by omega)

/-- Claim C1: for a transcript sorted ascending by `startTime` with pairwise
non-overlapping segments, `findCurrentLineIndex` returns the index of the
(unique) segment whose half-open interval `[startTime, endTime)` contains `t`,
and returns `-1` whenever no segment contains `t` (gaps, before the first
segment, at or past the last segment's end, and the empty transcript).
At a shared boundary `end = start` the later segment wins, since its
half-open interval is the one containing the boundary time. -/
theorem findCurrentLineIndex_spec (lyrics : List LyricLine) (t : Int)
    (hsort : lyrics.Pairwise (fun a b => a.startTime ≤ b.startTime))
    (hdisj : lyrics.Pairwise (fun a b => a.endTime ≤ b.startTime)) :
    (∀ (j : Fin lyrics.length), segContains (lyrics.get j) t →
        findCurrentLineIndex lyrics t = (j : Int)) ∧
    ((∀ (j : Fin lyrics.length), ¬ segContains (lyrics.get j) t) →
        findCurrentLineIndex lyrics t = -1) := by
  constructor
  · rintro ⟨j, hj⟩ hc
    have hne : lyrics.length ≠ 0 := by omega
    unfold findCurrentLineIndex
    rw [if_neg hne]
    exact findAux_complete lyrics t hsort hdisj j hj hc
      ((lyrics.length : Int) - 1 + 1 - (0 : Nat)).toNat 0 ((lyrics.length : Int) - 1) (-1)
      (by omega) (by omega) (by omega) (by omega)
  · intro hnone
    by_cases hne : lyrics.length = 0
    · unfold findCurrentLineIndex
      rw [if_pos hne]
    · unfold findCurrentLineIndex
      rw [if_neg hne]
      rcases findAux_sound lyrics t ((lyrics.length : Int) - 1 + 1 - ((0 : Nat) : Int)).toNat
          0 ((lyrics.length : Int) - 1) (-1) (by omega) with h | ⟨j, hj, hval, hc⟩
      · exact h
      · exact absurd hc (hnone ⟨j, hj⟩)

/-- Witness for C1 on the sample transcript: `findActive 4000 = 2` (shared
boundary favours the later line) and `findActive 2200 = -1` (gap). -/
theorem findCurrentLineIndex_spec_witness :
    findCurrentLineIndex sampleLyrics 4000 = 2 ∧
      findCurrentLineIndex sampleLyrics 2200 = -1 :=
  ⟨(findCurrentLineIndex_spec sampleLyrics 4000 (by decide) (by decide)).1
      ⟨2, by decide⟩ (by decide),
   (findCurrentLineIndex_spec sampleLyrics 2200 (by decide) (by decide)).2
      (by decide)⟩

/-- Claim C2 (evaluated at the specification's scenario, exposing the code
bug): `setLoopRegion(0, 2000, 3)` followed by three boundary crossings ends
with the region inactive, `currentIteration = 2` and the `isPlaying` flag
false, having issued exactly two rewind seeks; but no pause command is ever
issued to the transport on the final crossing — the deactivation branch of
`checkLoopBoundary` only flips the `isPlaying` state flag. With the infinite
sentinel `repeatCount = 0`, every crossing rewinds and the region stays
active. -/
theorem loopRepeat_scenario :
    (runBoundaryTicks (setLoopRegionHandler ⟨none, 0, false, 6000⟩ 0 2000 3).1
        [2100, 2100, 2100]).1 =
      ⟨some ⟨0, 2000, 3, 2, false⟩, 0, false, 6000⟩ ∧
    (runBoundaryTicks (setLoopRegionHandler ⟨none, 0, false, 6000⟩ 0 2000 3).1
        [2100, 2100, 2100]).2.count (PlayerAction.transportSeek 0) = 2 ∧
    PlayerAction.transportPause ∉
      (runBoundaryTicks (setLoopRegionHandler ⟨none, 0, false, 6000⟩ 0 2000 3).1
        [2100, 2100, 2100]).2 ∧
    (runBoundaryTicks (setLoopRegionHandler ⟨none, 0, false, 6000⟩ 0 2000 0).1
        [2100, 2100, 2100, 2100]).1.loopRegion = some ⟨0, 2000, 0, 4, true⟩ := by
  decide

/-- Claim C3: while a loop is active, a tick at or past `endTimeMs` performs
exactly one rewind per crossing regardless of overshoot: the result is
identical to a tick exactly at `endTimeMs`; when the loop continues, the
iteration counter increases by exactly one and the trace contains exactly one
transport seek (back to `startTimeMs`) and one iteration event; when it does
not, the region is merely deactivated, with no seek and no iteration event. -/
theorem checkLoopBoundary_one_rewind (s : AudioPlayerState) (lr : LoopRegion)
    (hlr : s.loopRegion = some lr) (hact : lr.isActive = true)
    (t : Int) (ht : lr.endTime ≤ t) :
    checkLoopBoundary s t = checkLoopBoundary s lr.endTime ∧
    ((lr.repeatCount = 0 ∨ (lr.currentIteration : Int) + 1 < lr.repeatCount) →
      checkLoopBoundary s t =
        ({ s with
            loopRegion := some { lr with currentIteration := lr.currentIteration + 1 },
            currentTime := lr.startTime },
         [.transportSeek lr.startTime, .updatePosition lr.startTime,
          .notifyTime lr.startTime, .iterationEvent])) ∧
    (¬(lr.repeatCount = 0 ∨ (lr.currentIteration : Int) + 1 < lr.repeatCount) →
      (checkLoopBoundary s t).1 =
        { s with loopRegion := some { lr with isActive := false }, isPlaying := false } ∧
      (∀ u, PlayerAction.transportSeek u ∉ (checkLoopBoundary s t).2) ∧
      PlayerAction.iterationEvent ∉ (checkLoopBoundary s t).2) := by
  have hnotfalse : ¬ (lr.isActive = false) := by simp [hact]
  have hself : lr.endTime ≤ lr.endTime := le_refl _
  unfold checkLoopBoundary
  rw [hlr]
  dsimp only
  simp only [if_neg hnotfalse, if_pos ht, if_pos hself]
  refine ⟨trivial, fun hcond => ?_, fun hcond => ?_⟩
  · rw [if_pos hcond]
  · rw [if_neg hcond]
    refine ⟨rfl, ?_, ?_⟩
    · intro u
      cases s.isPlaying <;> simp
    · cases s.isPlaying <;> simp

/-- Witness for C3 at a concrete state: an overshooting tick at 2100 gives
the same result as a tick exactly at the boundary 2000. -/
theorem checkLoopBoundary_one_rewind_witness :
    checkLoopBoundary ⟨some ⟨0, 2000, 3, 0, true⟩, 1500, true, 6000⟩ 2100 =
      checkLoopBoundary ⟨some ⟨0, 2000, 3, 0, true⟩, 1500, true, 6000⟩ 2000 :=
  (checkLoopBoundary_one_rewind ⟨some ⟨0, 2000, 3, 0, true⟩, 1500, true, 6000⟩
    ⟨0, 2000, 3, 0, true⟩ rfl rfl 2100 (by decide)).1

/-- Claim C6: `seekTo` clamps the target to `[0, duration]`, writes the
tracked position and notifies the parent before the transport seek command,
and when the player is paused it additionally issues a play command and ends
up playing. -/
theorem seekTo_spec (s : AudioPlayerState) (t : Int) :
    (seekTo s t).1.currentTime = max 0 (min t s.duration) ∧
    (0 ≤ s.duration →
      0 ≤ (seekTo s t).1.currentTime ∧ (seekTo s t).1.currentTime ≤ s.duration) ∧
    (∃ pre post,
      (seekTo s t).2 = pre ++ PlayerAction.transportSeek (max 0 (min t s.duration)) :: post ∧
      PlayerAction.updatePosition (max 0 (min t s.duration)) ∈ pre ∧
      PlayerAction.notifyTime (max 0 (min t s.duration)) ∈ pre ∧
      ∀ u, PlayerAction.transportSeek u ∉ pre) ∧
    (s.isPlaying = false →
      (seekTo s t).1.isPlaying = true ∧ PlayerAction.transportPlay ∈ (seekTo s t).2) := by
  cases hp : s.isPlaying
  · refine ⟨by simp [seekTo, hp], fun hd => ?_, ?_, fun _ => ⟨?_, ?_⟩⟩
    · have hc : (seekTo s t).1.currentTime = max 0 (min t s.duration) := by
        simp [seekTo, hp]
      omega
    · refine ⟨[.updatePosition (max 0 (min t s.duration)),
               .notifyTime (max 0 (min t s.duration))],
              [.transportPlay, .setPlayingFlag true], ?_, by simp, by simp, by simp⟩
      simp [seekTo, hp]
    · simp [seekTo, hp]
    · simp [seekTo, hp]
  · refine ⟨by simp [seekTo, hp], fun hd => ?_, ?_,
      fun hfalse => absurd hfalse (by simp)⟩
    · have hc : (seekTo s t).1.currentTime = max 0 (min t s.duration) := by
        simp [seekTo, hp]
      omega
    · refine ⟨[.updatePosition (max 0 (min t s.duration)),
               .notifyTime (max 0 (min t s.duration))], [], ?_, by simp, by simp, by simp⟩
      simp [seekTo, hp]

/-- Witness for C6 at the specification's scenario: `seek(5999)` on a 6000ms
track while paused tracks the clamped position and starts playback. -/
theorem seekTo_spec_witness :
    (seekTo ⟨none, 0, false, 6000⟩ 5999).1.currentTime = 5999 ∧
    (seekTo ⟨none, 0, false, 6000⟩ 5999).1.isPlaying = true ∧
    PlayerAction.transportPlay ∈ (seekTo ⟨none, 0, false, 6000⟩ 5999).2 :=
  ⟨(seekTo_spec ⟨none, 0, false, 6000⟩ 5999).1.trans (by decide),
   ((seekTo_spec ⟨none, 0, false, 6000⟩ 5999).2.2.2 rfl).1,
   ((seekTo_spec ⟨none, 0, false, 6000⟩ 5999).2.2.2 rfl).2⟩

/-- Claim C9: the `STOP_LOOP` action only clears `isActive`; mode, range,
selection, repeat count and iteration counter are all preserved. -/
theorem stopLoop_frame (s : LoopState) :
    loopReducer s .stopLoop =
      { isActive := false, mode := s.mode, startTime := s.startTime,
        endTime := s.endTime, selectedLyricIndices := s.selectedLyricIndices,
        repeatCount := s.repeatCount, currentIteration := s.currentIteration } :=
  rfl

/-- Claim C10: `SET_REPEAT_COUNT` stores `max(0, count)`, so a negative
request is clamped to the infinite-repeat sentinel 0; and a loop region
whose repeat count equals that sentinel always rewinds at a boundary
crossing (it never deactivates on its own). -/
theorem setRepeatCount_clamps (s : LoopState) (c : Int) :
    loopReducer s (.setRepeatCount c) = { s with repeatCount := max 0 c } ∧
    (c < 0 → (loopReducer s (.setRepeatCount c)).repeatCount = 0) ∧
    (c < 0 → ∀ (ps : AudioPlayerState) (lr : LoopRegion),
      ps.loopRegion = some lr → lr.isActive = true →
      lr.repeatCount = (loopReducer s (.setRepeatCount c)).repeatCount →
      ∀ t, lr.endTime ≤ t →
        (checkLoopBoundary ps t).1.loopRegion =
          some { lr with currentIteration := lr.currentIteration + 1 }) := by
  refine ⟨rfl, fun hc => ?_, fun hc ps lr hlr hact hrc t ht => ?_⟩
  · simp only [loopReducer]
    omega
  · have hrc0 : lr.repeatCount = 0 := by
      rw [hrc]
      simp only [loopReducer]
      omega
    have hnotfalse : ¬ (lr.isActive = false) := by simp [hact]
    unfold checkLoopBoundary
    rw [hlr]
    dsimp only
    rw [if_neg hnotfalse, if_pos ht, if_pos (Or.inl hrc0)]

/-- Witness for C10: a concrete negative request is stored as 0 and the
resulting region rewinds at a crossing. -/
theorem setRepeatCount_clamps_witness :
    (loopReducer initialLoopState (.setRepeatCount (-5))).repeatCount = 0 ∧
    (checkLoopBoundary ⟨some ⟨0, 2000, 0, 7, true⟩, 0, true, 6000⟩ 2100).1.loopRegion =
      some ⟨0, 2000, 0, 8, true⟩ :=
  ⟨(setRepeatCount_clamps initialLoopState (-5)).2.1 (by decide),
   ((setRepeatCount_clamps initialLoopState (-5)).2.2 (by decide)
     ⟨some ⟨0, 2000, 0, 7, true⟩, 0, true, 6000⟩ ⟨0, 2000, 0, 7, true⟩
     rfl rfl (by decide) 2100 (by decide)).trans rfl⟩

/-- Counterexample for claim C4 as stated: with `duration = 500` the
validated end `1000` exceeds the duration, so the bounds do not always lie
within `[0, duration]`. -/
theorem validateTimeRange_claim_cex :
    validateTimeRange 0 500 500 = (0, 1000) ∧
      ¬ ((validateTimeRange 0 500 500).2 ≤ 500) := by
  decide

/-- Claim C4 (amended): the validated range always spans at least 1000ms;
for a non-negative duration the start is clamped into `[0, duration]` and
the end is non-negative; the end lies within the duration whenever the
clamped start leaves room for the minimum 1000ms span. -/
theorem validateTimeRange_spec (s e d : Int) :
    1000 ≤ (validateTimeRange s e d).2 - (validateTimeRange s e d).1 ∧
    (0 ≤ d → 0 ≤ (validateTimeRange s e d).1 ∧ (validateTimeRange s e d).1 ≤ d ∧
      0 ≤ (validateTimeRange s e d).2) ∧
    ((validateTimeRange s e d).1 + 1000 ≤ d → (validateTimeRange s e d).2 ≤ d) := by
  simp only [validateTimeRange]
  omega

/-- Witness for C4 (amended) at `validate(100, 300, 5000) = (100, 1100)`. -/
theorem validateTimeRange_spec_witness :
    1000 ≤ (validateTimeRange 100 300 5000).2 - (validateTimeRange 100 300 5000).1 ∧
    0 ≤ (validateTimeRange 100 300 5000).1 ∧
    (validateTimeRange 100 300 5000).2 ≤ 5000 :=
  ⟨(validateTimeRange_spec 100 300 5000).1,
   ((validateTimeRange_spec 100 300 5000).2.1 (by decide)).1,
   (validateTimeRange_spec 100 300 5000).2.2 (by decide)⟩

/-- `List.foldl min` is bounded by its initial value. -/
theorem foldl_min_le_init (ls : List Int) (a : Int) : ls.foldl min a ≤ a := by
  induction ls generalizing a with
  | nil => exact le_refl a
  | cons b bs ih => exact le_trans (ih (min a b)) (min_le_left a b)

/-- `List.foldl min` is bounded by every list element. -/
theorem foldl_min_le_mem (ls : List Int) (a x : Int) (hx : x ∈ ls) :
    ls.foldl min a ≤ x := by
  induction ls generalizing a with
  | nil => cases hx
  | cons b bs ih =>
    rcases List.mem_cons.mp hx with rfl | hx2
    · exact le_trans (foldl_min_le_init bs (min a x)) (min_le_right a x)
    · exact ih (min a b) hx2

/-- `List.foldl min` is the initial value or a list element. -/
theorem foldl_min_mem (ls : List Int) (a : Int) :
    ls.foldl min a = a ∨ ls.foldl min a ∈ ls := by
  induction ls generalizing a with
  | nil => exact Or.inl rfl
  | cons b bs ih =>
    rcases ih (min a b) with h | h
    · rcases min_choice a b with hm | hm
      · exact Or.inl (by rw [List.foldl_cons, h, hm])
      · exact Or.inr (by rw [List.foldl_cons, h, hm]; exact List.mem_cons_self b bs)
    · exact Or.inr (List.mem_cons_of_mem b h)

/-- `List.foldl max` dominates its initial value. -/
theorem le_foldl_max_init (ls : List Int) (a : Int) : a ≤ ls.foldl max a := by
  induction ls generalizing a with
  | nil => exact le_refl a
  | cons b bs ih => exact le_trans (le_max_left a b) (ih (max a b))

/-- `List.foldl max` dominates every list element. -/
theorem le_foldl_max_mem (ls : List Int) (a x : Int) (hx : x ∈ ls) :
    x ≤ ls.foldl max a := by
  induction ls generalizing a with
  | nil => cases hx
  | cons b bs ih =>
    rcases List.mem_cons.mp hx with rfl | hx2
    · exact le_trans (le_max_right a x) (le_foldl_max_init bs (max a x))
    · exact ih (max a b) hx2

/-- `List.foldl max` is the initial value or a list element. -/
theorem foldl_max_mem (ls : List Int) (a : Int) :
    ls.foldl max a = a ∨ ls.foldl max a ∈ ls := by
  induction ls generalizing a with
  | nil => exact Or.inl rfl
  | cons b bs ih =>
    rcases ih (max a b) with h | h
    · rcases max_choice a b with hm | hm
      · exact Or.inl (by rw [List.foldl_cons, h, hm])
      · exact Or.inr (by rw [List.foldl_cons, h, hm]; exact List.mem_cons_self b bs)
    · exact Or.inr (List.mem_cons_of_mem b h)

/-- Claim C7: in `'lyrics'` mode, the derived loop range is
`min(startTime)`/`max(endTime)` over the resolved selected segments; an empty
selection derives `{0,0}`; `startLoop` refuses (returns `false` with the
state untouched, hence no activation and no exception) exactly when the
derived range is zero-width — which covers the empty selection — and
otherwise activates the loop with the validated derived range and returns
`true`. -/
theorem startLoop_lyrics_spec (state : LoopState) (ld : Option LyricsData)
    (duration : Int) (hmode : state.mode = some .lyrics) :
    (state.selectedLyricIndices = [] →
      calculateTimeRangeFromLyrics state.selectedLyricIndices ld = (0, 0)) ∧
    (∀ ld', ld = some ld' →
      ∀ l ∈ state.selectedLyricIndices.filterMap (fun i => ld'.lyrics[i]?),
        (calculateTimeRangeFromLyrics state.selectedLyricIndices ld).1 ≤ l.startTime ∧
        l.endTime ≤ (calculateTimeRangeFromLyrics state.selectedLyricIndices ld).2) ∧
    (∀ ld', ld = some ld' →
      state.selectedLyricIndices.filterMap (fun i => ld'.lyrics[i]?) ≠ [] →
      (∃ l ∈ state.selectedLyricIndices.filterMap (fun i => ld'.lyrics[i]?),
        (calculateTimeRangeFromLyrics state.selectedLyricIndices ld).1 = l.startTime) ∧
      (∃ l ∈ state.selectedLyricIndices.filterMap (fun i => ld'.lyrics[i]?),
        (calculateTimeRangeFromLyrics state.selectedLyricIndices ld).2 = l.endTime)) ∧
    ((calculateTimeRangeFromLyrics state.selectedLyricIndices ld).1 =
        (calculateTimeRangeFromLyrics state.selectedLyricIndices ld).2 →
      startLoopHook state ld duration = (state, false)) ∧
    ((calculateTimeRangeFromLyrics state.selectedLyricIndices ld).1 ≠
        (calculateTimeRangeFromLyrics state.selectedLyricIndices ld).2 →
      startLoopHook state ld duration =
        ({ state with
            isActive := true,
            startTime := (validateTimeRange
              (calculateTimeRangeFromLyrics state.selectedLyricIndices ld).1
              (calculateTimeRangeFromLyrics state.selectedLyricIndices ld).2 duration).1,
            endTime := (validateTimeRange
              (calculateTimeRangeFromLyrics state.selectedLyricIndices ld).1
              (calculateTimeRangeFromLyrics state.selectedLyricIndices ld).2 duration).2,
            currentIteration := 0 }, true)) := by
  refine ⟨?_, ?_, ?_, ?_, ?_⟩
  · intro hempty
    unfold calculateTimeRangeFromLyrics
    rw [hempty]
    cases ld <;> rfl
  · rintro ld' rfl l hl
    unfold calculateTimeRangeFromLyrics
    cases hsi : state.selectedLyricIndices with
    | nil => rw [hsi] at hl; simp at hl
    | cons a as =>
      rw [hsi] at hl
      dsimp only
      cases hsel : (a :: as).filterMap (fun i => ld'.lyrics[i]?) with
      | nil => rw [hsel] at hl; simp at hl
      | cons l0 ls0 =>
        rw [hsel] at hl
        dsimp only
        rcases List.mem_cons.mp hl with rfl | hl2
        · constructor
          · exact foldl_min_le_init _ _
          · exact le_foldl_max_init _ _
        · constructor
          · exact foldl_min_le_mem _ _ _ (List.mem_map_of_mem LyricLine.startTime hl2)
          · exact le_foldl_max_mem _ _ _ (List.mem_map_of_mem LyricLine.endTime hl2)
  · rintro ld' rfl hne
    unfold calculateTimeRangeFromLyrics
    cases hsi : state.selectedLyricIndices with
    | nil =>
      exfalso
      apply hne
      rw [hsi]
      rfl
    | cons a as =>
      rw [hsi] at hne
      dsimp only
      cases hsel : (a :: as).filterMap (fun i => ld'.lyrics[i]?) with
      | nil => exact absurd hsel hne
      | cons l0 ls0 =>
        dsimp only
        constructor
        · rcases foldl_min_mem (ls0.map LyricLine.startTime) l0.startTime with h | h
          · exact ⟨l0, List.mem_cons_self l0 ls0, h⟩
          · obtain ⟨l1, hl1, hval⟩ := List.mem_map.mp h
            exact ⟨l1, List.mem_cons_of_mem l0 hl1, hval.symm ▸ rfl⟩
        · rcases foldl_max_mem (ls0.map LyricLine.endTime) l0.endTime with h | h
          · exact ⟨l0, List.mem_cons_self l0 ls0, h⟩
          · obtain ⟨l1, hl1, hval⟩ := List.mem_map.mp h
            exact ⟨l1, List.mem_cons_of_mem l0 hl1, hval.symm ▸ rfl⟩
  · intro heq
    unfold startLoopHook
    rw [hmode]
    dsimp only
    rw [if_pos heq]
  · intro hne
    unfold startLoopHook
    rw [hmode]
    dsimp only
    rw [if_neg hne]
    simp only [loopReducer]
    rw [hmode]

/-- Witness for C7: with lines 1 and 2 of the sample transcript selected,
the derived range is `(2500, 6000)` and the loop activates; with an empty
selection the hook refuses and leaves the state unchanged. -/
theorem startLoop_lyrics_spec_witness :
    startLoopHook
        { isActive := false, mode := some .lyrics, startTime := 0, endTime := 0,
          selectedLyricIndices := [1, 2], repeatCount := 1, currentIteration := 0 }
        (some ⟨⟨.str "T", .str "A", 6000⟩, sampleLyrics⟩) 6000 =
      ({ isActive := true, mode := some .lyrics, startTime := 2500, endTime := 6000,
         selectedLyricIndices := [1, 2], repeatCount := 1, currentIteration := 0 }, true) ∧
    startLoopHook
        { isActive := false, mode := some .lyrics, startTime := 0, endTime := 0,
          selectedLyricIndices := [], repeatCount := 1, currentIteration := 0 }
        (some ⟨⟨.str "T", .str "A", 6000⟩, sampleLyrics⟩) 6000 =
      ({ isActive := false, mode := some .lyrics, startTime := 0, endTime := 0,
         selectedLyricIndices := [], repeatCount := 1, currentIteration := 0 }, false) :=
  ⟨((startLoop_lyrics_spec
      { isActive := false, mode := some .lyrics, startTime := 0, endTime := 0,
        selectedLyricIndices := [1, 2], repeatCount := 1, currentIteration := 0 }
      (some ⟨⟨.str "T", .str "A", 6000⟩, sampleLyrics⟩) 6000 rfl).2.2.2.2
      (by decide)).trans (by decide),
   ((startLoop_lyrics_spec
      { isActive := false, mode := some .lyrics, startTime := 0, endTime := 0,
        selectedLyricIndices := [], repeatCount := 1, currentIteration := 0 }
      (some ⟨⟨.str "T", .str "A", 6000⟩, sampleLyrics⟩) 6000 rfl).2.2.2.1
      (by decide)).trans (by decide)⟩

/-- A valid line entry parses to `extractLine` regardless of its index. -/
theorem parseLyricLine_of_ok (line : JsonVal) (i : Nat) (h : lineOk line = true) :
    parseLyricLine line i = .ok (extractLine line) := by
  unfold lineOk at h
  unfold parseLyricLine extractLine
  split at h
  case _ s e jp ro en heq1 heq2 heq3 heq4 heq5 =>
    rw [heq1, heq2, heq3, heq4, heq5]
    dsimp only [asNum, asStr]
    rw [if_neg (by have := of_decide_eq_true h; omega)]
  case _ => cases h

/-- An invalid line entry makes the parse of that line fail. -/
theorem parseLyricLine_of_bad (line : JsonVal) (i : Nat) (h : lineOk line = false) :
    ∃ e, parseLyricLine line i = .error e := by
  unfold lineOk at h
  unfold parseLyricLine
  split at h
  case _ s e jp ro en heq1 heq2 heq3 heq4 heq5 =>
    rw [if_pos (by have := of_decide_eq_false h; omega)]
    exact ⟨_, rfl⟩
  case _ => exact ⟨_, rfl⟩

/-- If every entry is valid, the traversal succeeds with the extracted lines
in input order. -/
theorem parseLines_of_ok (items : List JsonVal) (h : ∀ l ∈ items, lineOk l = true) :
    ∀ i, parseLines i items = .ok (items.map extractLine) := by
  induction items with
  | nil => intro i; rfl
  | cons a as ih =>
    intro i
    unfold parseLines
    rw [parseLyricLine_of_ok a i (h a (List.mem_cons_self a as))]
    dsimp only
    rw [ih (fun l hl => h l (List.mem_cons_of_mem a hl)) (i + 1)]
    exact rfl

/-- If some entry is invalid, the traversal fails. -/
theorem parseLines_of_bad (items : List JsonVal) (h : ∃ l ∈ items, lineOk l = false) :
    ∀ i, ∃ e, parseLines i items = .error e := by
  induction items with
  | nil =>
    obtain ⟨l, hl, _⟩ := h
    cases hl
  | cons a as ih =>
    intro i
    unfold parseLines
    by_cases ha : lineOk a = true
    · rw [parseLyricLine_of_ok a i ha]
      dsimp only
      obtain ⟨l, hl, hbad⟩ := h
      rcases List.mem_cons.mp hl with rfl | hmem
      · rw [ha] at hbad; cases hbad
      · obtain ⟨e, he⟩ := ih ⟨l, hmem, hbad⟩ (i + 1)
        rw [he]
        exact ⟨e, rfl⟩
    · have ha2 : lineOk a = false := by revert ha; cases lineOk a <;> simp
      obtain ⟨e, he⟩ := parseLyricLine_of_bad a i ha2
      rw [he]
      exact ⟨e, rfl⟩

/-- Claim C8 (amended): `parseJSON` fails when `metadata` or `lyrics` is
absent (falsy); when `title` or `artist` is falsy or `duration` is not a
number; when `lyrics` is truthy but not an array; and when any line entry has
a missing or wrongly-typed field or `startTime >= endTime`. When the
metadata checks pass, `lyrics` is an array and every line entry is valid,
it succeeds, and the resulting lines are exactly the parsed input lines
(a permutation — no partial load) sorted ascending by `startTime` regardless
of input order. `title`/`artist` are only checked for truthiness, not type. -/
theorem parseJSON_spec (jsonData : JsonVal) :
    ((truthy (jfield jsonData "metadata") = false ∨
        truthy (jfield jsonData "lyrics") = false) →
      parseJSON jsonData = .error "Invalid lyrics data: missing metadata or lyrics") ∧
    (truthy (jfield jsonData "metadata") = true →
      truthy (jfield jsonData "lyrics") = true →
      (truthy (jfield (jfield jsonData "metadata") "title") = false ∨
       truthy (jfield (jfield jsonData "metadata") "artist") = false ∨
       isNum (jfield (jfield jsonData "metadata") "duration") = false) →
      parseJSON jsonData = .error "Invalid metadata: missing title, artist, or duration") ∧
    (truthy (jfield jsonData "metadata") = true →
      truthy (jfield jsonData "lyrics") = true →
      truthy (jfield (jfield jsonData "metadata") "title") = true →
      truthy (jfield (jfield jsonData "metadata") "artist") = true →
      isNum (jfield (jfield jsonData "metadata") "duration") = true →
      (∀ items, jfield jsonData "lyrics" ≠ .arr items) →
      parseJSON jsonData = .error "TypeError: lyrics.map is not a function") ∧
    (∀ items, truthy (jfield jsonData "metadata") = true →
      truthy (jfield (jfield jsonData "metadata") "title") = true →
      truthy (jfield (jfield jsonData "metadata") "artist") = true →
      isNum (jfield (jfield jsonData "metadata") "duration") = true →
      jfield jsonData "lyrics" = .arr items →
      (∃ l ∈ items, lineOk l = false) →
      ∃ e, parseJSON jsonData = .error e) ∧
    (∀ items, truthy (jfield jsonData "metadata") = true →
      truthy (jfield (jfield jsonData "metadata") "title") = true →
      truthy (jfield (jfield jsonData "metadata") "artist") = true →
      isNum (jfield (jfield jsonData "metadata") "duration") = true →
      jfield jsonData "lyrics" = .arr items →
      (∀ l ∈ items, lineOk l = true) →
      ∃ res, parseJSON jsonData = .ok res ∧
        res.lyrics.Pairwise (fun a b => a.startTime ≤ b.startTime) ∧
        res.lyrics.Perm (items.map extractLine) ∧
        res.metadata.duration = asNum (jfield (jfield jsonData "metadata") "duration")) := by
  refine ⟨?_, ?_, ?_, ?_, ?_⟩
  · intro h
    rcases h with h | h <;> simp [parseJSON, h]
  · intro h1 h2 hbad
    rcases hbad with h | h | h <;> simp [parseJSON, h1, h2, h]
  · intro h1 h2 h3 h4 h5 hnot
    have hc1 : (!truthy (jfield jsonData "metadata") ||
        !truthy (jfield jsonData "lyrics")) = false := by rw [h1, h2]; rfl
    have hc2 : ((!truthy (jfield (jfield jsonData "metadata") "title") ||
        !truthy (jfield (jfield jsonData "metadata") "artist")) ||
         !isNum (jfield (jfield jsonData "metadata") "duration")) = false := by
      rw [h3, h4, h5]; rfl
    simp only [parseJSON]
    rw [hc1, hc2]
    cases h6 : jfield jsonData "lyrics" with
    | arr items => exact absurd h6 (hnot items)
    | null => rfl
    | bool b => rfl
    | num n => rfl
    | str s => rfl
    | obj fields => rfl
  · rintro items h1 h3 h4 h5 harr hbad
    obtain ⟨e, he⟩ := parseLines_of_bad items hbad 0
    refine ⟨e, ?_⟩
    have h2 : truthy (jfield jsonData "lyrics") = true := by rw [harr]; rfl
    have hc1 : (!truthy (jfield jsonData "metadata") ||
        !truthy (jfield jsonData "lyrics")) = false := by rw [h1, h2]; rfl
    have hc2 : ((!truthy (jfield (jfield jsonData "metadata") "title") ||
        !truthy (jfield (jfield jsonData "metadata") "artist")) ||
         !isNum (jfield (jfield jsonData "metadata") "duration")) = false := by
      rw [h3, h4, h5]; rfl
    simp only [parseJSON]
    rw [hc1, hc2, harr]
    dsimp only
    rw [he]
    rfl
  · rintro items h1 h3 h4 h5 harr hall
    refine ⟨⟨⟨jfield (jfield jsonData "metadata") "title",
        jfield (jfield jsonData "metadata") "artist",
        asNum (jfield (jfield jsonData "metadata") "duration")⟩,
      (items.map extractLine).insertionSort (fun a b => a.startTime ≤ b.startTime)⟩,
      ?_, ?_, ?_, rfl⟩
    · have h2 : truthy (jfield jsonData "lyrics") = true := by rw [harr]; rfl
      have hc1 : (!truthy (jfield jsonData "metadata") ||
          !truthy (jfield jsonData "lyrics")) = false := by rw [h1, h2]; rfl
      have hc2 : ((!truthy (jfield (jfield jsonData "metadata") "title") ||
          !truthy (jfield (jfield jsonData "metadata") "artist")) ||
           !isNum (jfield (jfield jsonData "metadata") "duration")) = false := by
        rw [h3, h4, h5]; rfl
      simp only [parseJSON]
      rw [hc1, hc2, harr]
      dsimp only
      rw [parseLines_of_ok items hall 0]
      rfl
    · exact List.sorted_insertionSort _ _
    · exact List.perm_insertionSort _ _

/-- Counterexample for claim C8 as stated: a metadata `title` of the wrong
type (a truthy number) loads successfully — the parser only checks
truthiness of `title`/`artist`; and a present but non-array `lyrics` value
fails even though none of the claim's failure conditions hold. -/
theorem parseJSON_claim_cex :
    parseJSON (.obj [("metadata", .obj [("title", .num 7), ("artist", .str "A"),
        ("duration", .num 100)]), ("lyrics", .arr [])]) =
      .ok ⟨⟨.num 7, .str "A", 100⟩, []⟩ ∧
    parseJSON (.obj [("metadata", .obj [("title", .str "T"), ("artist", .str "A"),
        ("duration", .num 100)]), ("lyrics", .num 5)]) =
      .error "TypeError: lyrics.map is not a function" :=
  ⟨rfl, rfl⟩

/-- Witness for C8 (amended) on a concrete out-of-order transcript: the load
succeeds, keeps every line, and sorts them ascending by start time. -/
theorem parseJSON_spec_witness :
    ∃ res, parseJSON sampleJson = .ok res ∧
      res.lyrics.Pairwise (fun a b => a.startTime ≤ b.startTime) ∧
      res.lyrics.Perm ([lineJsonB, lineJsonA].map extractLine) ∧
      res.metadata.duration = asNum (jfield (jfield sampleJson "metadata") "duration") :=
  (parseJSON_spec sampleJson).2.2.2.2 [lineJsonB, lineJsonA] rfl rfl rfl rfl rfl (by decide)

/-- For a non-degenerate interval `s < e`, the branch body used inside the
loop cases of `calculateProgress` agrees with the plain clamped linear
interpolation between `s` and `e`. -/
theorem branchProgress_eq (s e t : Int) (hse : s < e) :
    branchProgress s e t = clamp01 (((t - s : Int) : Rat) / ((e - s : Int) : Rat)) := by
  unfold branchProgress clamp01
  have hden : (0 : Rat) < ((e - s : Int) : Rat) := by
    exact_mod_cast (by omega : (0 : Int) < e - s)
  by_cases h1 : s ≤ t ∧ t ≤ e
  · rw [if_pos h1]
  · rw [if_neg h1]
    by_cases h2 : t < s
    · rw [if_pos h2]
      have hnum : ((t - s : Int) : Rat) < 0 := by
        exact_mod_cast (by omega : (t - s : Int) < 0)
      have hr : ((t - s : Int) : Rat) / ((e - s : Int) : Rat) < 0 :=
        div_neg_of_neg_of_pos hnum hden
      rw [min_eq_right (le_of_lt (lt_of_lt_of_le hr (by norm_num)))]
      rw [max_eq_left (le_of_lt hr)]
    · rw [if_neg h2]
      have het : e < t := by omega
      have hge : (1 : Rat) ≤ ((t - s : Int) : Rat) / ((e - s : Int) : Rat) := by
        rw [le_div_iff₀ hden, one_mul]
        exact_mod_cast (by omega : (e - s : Int) ≤ t - s)
      rw [min_eq_left hge]
      rw [max_eq_right (by norm_num : (0 : Rat) ≤ 1)]

/-- Claim C5 (amended): for an active current line with a non-degenerate
interval, progress during a `'lyrics'`- or `'time'`-mode loop equals the
plain clamped interpolation against the line's own bounds (the non-loop
formula); with no loop of either kind active the same formula applies; but
while an individual-lyric loop is active (and no mode loop), progress is
interpolated against the override's own bounds — agreeing with the line
formula exactly when those bounds coincide with the line's. -/
theorem calculateProgress_spec (t : Int) (loopState : Option SyncLoopState)
    (ind : Option IndividualLyricLoop) (cl : CurrentLine) (l : LyricLine)
    (hline : cl.line = some l) (hact : cl.isActive = true)
    (hdur : l.startTime < l.endTime) :
    ((loopActiveWithMode loopState .lyrics = true ∨
        loopActiveWithMode loopState .time = true) →
      calculateProgress t loopState ind cl =
        clamp01 (((t - l.startTime : Int) : Rat) /
          ((l.endTime - l.startTime : Int) : Rat))) ∧
    (loopActiveWithMode loopState .lyrics = false →
      loopActiveWithMode loopState .time = false →
      ∀ il, ind = some il → il.isActive = true → il.startTime < il.endTime →
      calculateProgress t loopState ind cl =
        clamp01 (((t - il.startTime : Int) : Rat) /
          ((il.endTime - il.startTime : Int) : Rat)) ∧
      (il.startTime = l.startTime → il.endTime = l.endTime →
        calculateProgress t loopState ind cl =
          clamp01 (((t - l.startTime : Int) : Rat) /
            ((l.endTime - l.startTime : Int) : Rat)))) ∧
    (loopActiveWithMode loopState .lyrics = false →
      loopActiveWithMode loopState .time = false →
      indLoopActive ind = false →
      calculateProgress t loopState ind cl =
        clamp01 (((t - l.startTime : Int) : Rat) /
          ((l.endTime - l.startTime : Int) : Rat))) := by
  have hnotact : ¬ (cl.isActive = false) := by simp [hact]
  refine ⟨?_, ?_, ?_⟩
  · intro h
    unfold calculateProgress
    rw [hline]
    dsimp only
    rw [if_neg hnotact]
    rcases h with h | h
    · rw [if_pos h]
      exact branchProgress_eq _ _ _ hdur
    · by_cases hl : loopActiveWithMode loopState .lyrics = true
      · rw [if_pos hl]
        exact branchProgress_eq _ _ _ hdur
      · rw [if_neg hl, if_pos h]
        exact branchProgress_eq _ _ _ hdur
  · intro hly htime il hind hilact hildur
    have hindt : indLoopActive ind = true := by
      rw [hind]
      exact hilact
    have hmain : calculateProgress t loopState ind cl =
        branchProgress il.startTime il.endTime t := by
      unfold calculateProgress
      rw [hline]
      dsimp only
      rw [if_neg hnotact]
      rw [if_neg (by simp [hly]), if_neg (by simp [htime]), if_pos hindt, hind]
    constructor
    · rw [hmain]
      exact branchProgress_eq _ _ _ hildur
    · intro he1 he2
      rw [hmain, branchProgress_eq _ _ _ hildur, he1, he2]
  · intro hly htime hindf
    unfold calculateProgress
    rw [hline]
    dsimp only
    rw [if_neg hnotact]
    rw [if_neg (by simp [hly]), if_neg (by simp [htime]), if_neg (by simp [hindf])]

/-- Counterexample for claim C5 as stated: with an individual-lyric loop over
`[0, 4000]` active while the current line is `[0, 2000]`, at `t = 3000` the
code computes progress `3/4` against the loop's bounds, whereas the line's
own formula gives `1`. -/
theorem calculateProgress_claim_cex :
    calculateProgress 3000 none (some ⟨true, 0, 4000, 0, 0⟩)
        ⟨0, some ⟨0, 2000, "x", "y", "z"⟩, true⟩ = 3 / 4 ∧
    clamp01 (((3000 - (0 : Int) : Int) : Rat) / ((2000 - (0 : Int) : Int) : Rat)) = 1 ∧
    (3 / 4 : Rat) ≠ 1 := by
  refine ⟨?_, ?_, by norm_num⟩
  · have hred : calculateProgress 3000 none (some ⟨true, 0, 4000, 0, 0⟩)
        ⟨0, some ⟨0, 2000, "x", "y", "z"⟩, true⟩ = branchProgress 0 4000 3000 := rfl
    rw [hred]
    unfold branchProgress
    rw [if_pos (by omega)]
    norm_num [clamp01, min_def, max_def]
  · norm_num [clamp01, min_def, max_def]

/-- Witness for C5 (amended): during an active time-mode loop over
`[0, 6000]`, at `t = 1000` inside the line `[0, 2000]`, progress is the
line-local `1/2`. -/
theorem calculateProgress_spec_witness :
    calculateProgress 1000 (some ⟨true, 0, 6000, 0, 3, some .time, []⟩) none
        ⟨0, some ⟨0, 2000, "a", "b", "c"⟩, true⟩ = 1 / 2 :=
  ((calculateProgress_spec 1000 (some ⟨true, 0, 6000, 0, 3, some .time, []⟩) none
      ⟨0, some ⟨0, 2000, "a", "b", "c"⟩, true⟩ ⟨0, 2000, "a", "b", "c"⟩ rfl rfl
      (by decide)).1 (Or.inr (by decide))).trans
    (by norm_num [clamp01, min_def, max_def])
